import Mathlib

/-!
Verification of the OptKeras core (src/optkeras/optkeras.py).

The development shallow-embeds the metric-tracking, trial-synchronization and
artifact-retention logic of the `OptKeras` class:

* Python dicts of Keras metric logs are embedded as association lists with
  first-match lookup and in-place replacement on key collision (`dictGet`,
  `dictSet`, `dictUpdate` mirror `dict.get`, item assignment and
  `dict.update`).
* Python floats are idealized as rationals; `np.Inf` and `-np.Inf` are the
  extra points of the extended-value type `XVal` (floating-point rounding is
  out of scope of the claims checked here).
* The file system visible to `glob.glob` and `os.remove` is a list of paths
  (lists of characters); `os.remove` fails on a missing path exactly as the
  Python call raises `FileNotFoundError`.
* The optuna collaborator (trial records, `study.best_trial` raising when no
  trial has completed) is external to the repository and is modelled from its
  interface boundary: `Study.bestTrial` yields the best completed trial and
  fails with `NoTrialsYet` when none exists; `Study.trials` is an ordered
  sequence of trial records.
-/

namespace OptKerasModel

/-- A value stored in a Keras `logs` dict: a float metric (idealized as `ℚ`),
a string (the datetime stamps and the monitor name), or an integer id. -/
inductive LogVal where
  | num (x : ℚ)
  | str (s : String)
  | intv (n : Int)
deriving DecidableEq

/-- A Python dict of metric logs, embedded as an association list
(first match wins on lookup; assignment replaces an existing binding). -/
abbrev Logs := List (String × LogVal)

/-- `d.get(k)`. -/
def dictGet : Logs → String → Option LogVal
  | [], _ => none
  | (k0, v0) :: rest, k => if k0 = k then some v0 else dictGet rest k

/-- `d[k] = v`. -/
def dictSet : Logs → String → LogVal → Logs
  | [], k, v => [(k, v)]
  | (k0, v0) :: rest, k, v =>
    if k0 = k then (k, v) :: rest else (k0, v0) :: dictSet rest k v

/-- `d.keys()`. -/
def dictKeys (d : Logs) : List String := d.map Prod.fst

/-- `d.update(src)`. -/
def dictUpdate (d src : Logs) : Logs :=
  src.foldl (fun acc kv => dictSet acc kv.1 kv.2) d

/-- `d.get(k, dflt)` where the value is used as a float (Keras metric values
are floats, so a non-numeric value under a metric key does not occur). -/
def qGet (d : Logs) (k : String) (dflt : ℚ) : ℚ :=
  match dictGet d k with
  | some (.num x) => x
  | _ => dflt

/-- A float value of the monitored metric, or one of the `np.Inf` sentinels. -/
inductive XVal where
  | negInf
  | fin (x : ℚ)
  | posInf
deriving DecidableEq

/-- `<` on floats extended with the infinities, as numpy compares them. -/
def xlt : XVal → XVal → Bool
  | .negInf, .fin _ => true
  | .negInf, .posInf => true
  | .fin _, .posInf => true
  | .fin a, .fin b => decide (a < b)
  | _, _ => false

/-- `d.get(k, dflt)` where `dflt` may be an infinite sentinel. -/
def xGet (d : Logs) (k : String) (dflt : XVal) : XVal :=
  match dictGet d k with
  | some (.num x) => .fin x
  | _ => dflt

/-- The fields of an `OptKeras` instance that carry the core logic.  File
paths are lists of characters; the optuna study handle, the CSV log file
paths and the verbosity settings (I/O glue) are not part of this state. -/
structure OptKerasState where
  monitor : String
  mode_max : Bool
  mode : String
  default_value : XVal
  latest_logs : Logs
  latest_value : XVal
  trial_best_logs : Logs
  trial_best_value : XVal
  models_to_keep : Int
  model_file_pfx : List Char
  model_file_sfx : List Char
deriving DecidableEq

/-- The state assembled by `OptKeras.__init__` (field `model_file_pfx` embeds
the attribute built from `directory_path + study_name + '_' + <arg>`). -/
def mkState (monitor : String) (models_to_keep : Int)
    (pfx sfx dir study_name : List Char) : OptKerasState :=
  let mode_max := monitor == "acc" || monitor == "val_acc"
  { monitor := monitor
    mode_max := mode_max
    mode := if mode_max then "max" else "min"
    default_value := if mode_max then .negInf else .posInf
    latest_logs := []
    latest_value := if mode_max then .negInf else .posInf
    trial_best_logs := []
    trial_best_value := if mode_max then .negInf else .posInf
    models_to_keep := models_to_keep
    model_file_pfx := dir ++ study_name ++ ['_'] ++ pfx
    model_file_sfx := sfx }

/-- `OptKeras.__init__` as the constructor may be observed by a caller: the
source contains no validation and no raise path of its own (the optuna
`create_study` call and the log-file path assembly are I/O glue), so every
argument combination constructs successfully. -/
def optKerasInit (monitor : String) (models_to_keep : Int)
    (pfx sfx dir study_name : List Char) : Except String OptKerasState :=
  .ok (mkState monitor models_to_keep pfx sfx dir study_name)

/-- `update_flag` in `OptKeras.on_epoch_end`. -/
def update_flag (latest best : XVal) (mode_max : Bool) : Bool :=
  (mode_max && xlt best latest) || (!mode_max && xlt latest best)

/-- `update_best_logs` in `OptKeras.on_epoch_end`: on strict improvement of
the monitored value, `best_logs.update(latest_logs)`. -/
def update_best_logs (latest_logs best_logs : Logs) (monitor : String)
    (mode_max : Bool) (default_value : XVal) : Logs :=
  let latest := xGet latest_logs monitor default_value
  let best := xGet best_logs monitor default_value
  if update_flag latest best mode_max then dictUpdate best_logs latest_logs
  else best_logs

/-- `OptKeras.on_epoch_begin`: stamps the epoch-begin datetime and resets
`trial_best_logs` to the empty dict.  Returns the new
`(datetime_epoch_begin, trial_best_logs)` pair of the instance. -/
def on_epoch_begin (datetime_now : String) (_trial_best_logs : Logs) :
    String × Logs :=
  (datetime_now, [])

/-- `OptKeras.on_epoch_end`: mutates `logs` in place (derived error metrics,
timestamps, trial id, monitor name) and updates the latest/trial-best state.
Returns the mutated `logs` dict and the updated state. -/
def on_epoch_end (st : OptKerasState)
    (datetime_epoch_begin datetime_epoch_end : String)
    (trial_id : Int) (logs : Logs) : Logs × OptKerasState :=
  let logs := dictSet logs "error" (.num (1 - qGet logs "acc" 0))
  let logs := dictSet logs "val_error" (.num (1 - qGet logs "val_acc" 0))
  let logs := dictSet logs "_Datetime_epoch_begin" (.str datetime_epoch_begin)
  let logs := dictSet logs "_Datetime_epoch_end" (.str datetime_epoch_end)
  let logs := dictSet logs "_Trial_id" (.intv trial_id)
  let logs := dictSet logs "_Monitor" (.str st.monitor)
  let latest_logs := logs
  let trial_best_logs :=
    update_best_logs latest_logs st.trial_best_logs st.monitor st.mode_max
      st.default_value
  let trial_best_value := xGet trial_best_logs st.monitor st.default_value
  (logs,
   { st with latest_logs := latest_logs, trial_best_logs := trial_best_logs,
             trial_best_value := trial_best_value })

/-- One Keras epoch as driven by the training loop: `on_epoch_begin` followed
by `on_epoch_end` (the datetime strings are irrelevant to the tracked state
and are passed as constants). -/
def runEpoch (st : OptKerasState) (trial_id : Int) (logs : Logs) :
    OptKerasState :=
  let begun := on_epoch_begin "" st.trial_best_logs
  let st := { st with trial_best_logs := begun.2 }
  (on_epoch_end st begun.1 "" trial_id logs).2

/-- A whole trial: the epoch callback pairs in epoch order. -/
def runTrialEpochs (st : OptKerasState) (trial_id : Int)
    (epochs : List Logs) : OptKerasState :=
  epochs.foldl (fun s logs => runEpoch s trial_id logs) st

/-- optuna trial states (`optuna.structs.TrialState`). -/
inductive TrialState where
  | running
  | complete
  | pruned
  | fail
deriving DecidableEq

/-- A frozen optuna trial record; every field is optional so that the
all-`None` sentinel `optuna.structs.FrozenTrial(None, ..., None)` is a value
of the same type.  Fields beyond id, state, value, params and user
attributes are not read by the core. -/
structure FrozenTrial where
  trial_id : Option Nat
  state : Option TrialState
  value : Option ℚ
  params : Option (List (String × ℚ))
  user_attrs : Option Logs
deriving DecidableEq

/-- `optuna.structs.FrozenTrial(None, None, ..., None)`. -/
def sentinelTrial : FrozenTrial :=
  { trial_id := none, state := none, value := none, params := none,
    user_attrs := none }

/-- The failure `study.best_trial` raises when no trial has completed. -/
inductive StudyError where
  | noTrialsYet
deriving DecidableEq

/-- Modelled from the external optuna collaborator's interface (spec section
6): `Study.bestTrial` returns the completed trial with the extremal objective
value under the study direction (a strictly better value replaces, so the
earliest extremal trial wins) and fails with `NoTrialsYet` when no completed
trial carries a value.  `dirMax = false` is the default minimize direction. -/
def studyBestTrial (dirMax : Bool) (trials : List FrozenTrial) :
    Except StudyError FrozenTrial :=
  let completed := trials.filter
    (fun t => decide (t.state = some TrialState.complete) && t.value.isSome)
  match completed with
  | [] => .error .noTrialsYet
  | c :: cs =>
    .ok (cs.foldl
      (fun a b =>
        match a.value, b.value with
        | some x, some y => if (if dirMax then x < y else y < x) then b else a
        | _, _ => a)
      c)

/-- `OptKeras.synch_with_optuna` (the optuna CSV log generation, an I/O side
effect whose failure is recovered from with a printed warning, is omitted).
Returns the `(best_trial, latest_trial)` pair the method stores on the
instance; the `try ... except` around `study.best_trial` becomes the `match`
substituting the sentinel. -/
def synch_with_optuna (dirMax : Bool) (trials : List FrozenTrial) :
    FrozenTrial × FrozenTrial :=
  let best_trial :=
    match studyBestTrial dirMax trials with
    | .ok t => t
    | .error _ => sentinelTrial
  let latest_trial :=
    if 1 ≤ trials.length then
      if (trials.getLastD sentinelTrial).state = some TrialState.running then
        if 2 ≤ trials.length then trials.getD (trials.length - 2) sentinelTrial
        else sentinelTrial
      else trials.getLastD sentinelTrial
    else sentinelTrial
  (best_trial, latest_trial)

/-- A file-system path, as `glob.glob` and `os.remove` see it. -/
abbrev Path := List Char

/-- Decimal digits of `n`, most significant first (structural fuel so that
the definition reduces definitionally; the fuel `n` bounds the digit count). -/
def digitsAux : Nat → Nat → List Char
  | 0, _ => []
  | fuel + 1, n =>
    if n = 0 then [] else digitsAux fuel (n / 10) ++ [Nat.digitChar (n % 10)]

/-- The decimal representation of `n`. -/
def decimalRepr (n : Nat) : List Char :=
  if n = 0 then ['0'] else digitsAux n n

/-- Python `'{:06d}'.format(n)`: the decimal digits, left-padded with zeros
to at least six characters. -/
def format6 (n : Nat) : List Char :=
  List.replicate (6 - (decimalRepr n).length) '0' ++ decimalRepr n

/-- `OptKeras.get_model_file_path`: the artifact path for a trial id, or the
glob pattern (id position rendered as `*`) when the id is `None`. -/
def get_model_file_path (pfx sfx : Path) (trial_id : Option Nat) : Path :=
  pfx ++ (match trial_id with | none => ['*'] | some i => format6 i) ++ sfx

/-- Whether `glob.glob` with pattern `pfx ++ "*" ++ sfx` matches the path
`f`: `*` matches any run of characters other than the path separator; `pfx`
and `sfx` are matched literally (they contain no glob metacharacters when
built from the study name and the model-file parts). -/
def globMatch (pfx sfx f : Path) : Bool :=
  decide (pfx.length + sfx.length ≤ f.length) &&
  (f.take pfx.length == pfx) &&
  (f.drop (f.length - sfx.length) == sfx) &&
  ((f.drop pfx.length).take (f.length - (pfx.length + sfx.length))).all
    (fun c => c != '/')

/-- `glob.glob(pattern)` over the file-system state `fs`. -/
def globFiles (pfx sfx : Path) (fs : List Path) : List Path :=
  fs.filter (fun f => globMatch pfx sfx f)

/-- `os.remove`: deletes the path, raising `FileNotFoundError` when it is
absent. -/
def osRemove (fs : List Path) (f : Path) : Except String (List Path) :=
  if f ∈ fs then .ok (fs.erase f) else .error "FileNotFoundError"

/-- The deletion loop of `OptKeras.clean_up_model_files`, applied to the
enumerated `model_file_list` against the file-system state current at each
deletion (an exception aborts the loop and propagates to the caller). -/
def removeLoop (best_model_file_path : Path) :
    List Path → List Path → Except String (List Path)
  | [], fs => .ok fs
  | f :: rest, fs =>
    if f = best_model_file_path then removeLoop best_model_file_path rest fs
    else
      match osRemove fs f with
      | .ok fs' => removeLoop best_model_file_path rest fs'
      | .error e => .error e

/-- `OptKeras.clean_up_model_files`: when `models_to_keep in [1]`, enumerate
the artifact files with `glob` and delete every one that is not the best
trial's artifact path; under any other retention count, do nothing at all. -/
def clean_up_model_files (models_to_keep : Int) (best_trial_id : Option Nat)
    (pfx sfx : Path) (fs : List Path) : Except String (List Path) :=
  if models_to_keep = 1 then
    let best_model_file_path := get_model_file_path pfx sfx best_trial_id
    let model_file_list := globFiles pfx sfx fs
    removeLoop best_model_file_path model_file_list fs
  else .ok fs

end OptKerasModel

namespace OptKerasModel

/-! ### Dictionary lemmas -/

theorem dictGet_dictSet (d : Logs) (k k' : String) (v : LogVal) :
    dictGet (dictSet d k v) k' = if k' = k then some v else dictGet d k' := by
  induction d with
  | nil =>
    by_cases h : k' = k
    · subst h; simp [dictGet, dictSet]
    · simp [dictGet, dictSet, h, Ne.symm h]
  | cons kv rest ih =>
    obtain ⟨k0, v0⟩ := kv
    by_cases h0 : k0 = k
    · subst h0
      by_cases h1 : k' = k0
      · subst h1; simp [dictGet, dictSet]
      · simp [dictGet, dictSet, h1, Ne.symm h1]
    · by_cases h1 : k' = k0
      · subst h1; simp [dictGet, dictSet, h0, Ne.symm h0]
      · simp [dictGet, dictSet, h0, h1, Ne.symm h1, ih]

theorem dictUpdate_cons (d : Logs) (k0 : String) (v0 : LogVal) (rest : Logs) :
    dictUpdate d ((k0, v0) :: rest) = dictUpdate (dictSet d k0 v0) rest := rfl

theorem dictGet_dictUpdate_not_mem (d src : Logs) (k : String)
    (h : k ∉ dictKeys src) :
    dictGet (dictUpdate d src) k = dictGet d k := by
  induction src generalizing d with
  | nil => rfl
  | cons kv rest ih =>
    obtain ⟨k0, v0⟩ := kv
    have h' : ¬ (k = k0 ∨ k ∈ dictKeys rest) := by simpa [dictKeys] using h
    have hne : k ≠ k0 := fun hh => h' (Or.inl hh)
    have hrest : k ∉ dictKeys rest := fun hh => h' (Or.inr hh)
    rw [dictUpdate_cons, ih _ hrest, dictGet_dictSet]
    simp [hne]

theorem dictGet_dictUpdate (d src : Logs) (k : String)
    (h : (dictKeys src).Nodup) :
    dictGet (dictUpdate d src) k
      = (dictGet src k).orElse (fun _ => dictGet d k) := by
  induction src generalizing d with
  | nil => simp [dictUpdate, dictGet, Option.orElse]
  | cons kv rest ih =>
    obtain ⟨k0, v0⟩ := kv
    have h' : k0 ∉ dictKeys rest ∧ (dictKeys rest).Nodup := by
      simpa [dictKeys] using h
    by_cases h1 : k = k0
    · subst h1
      rw [dictUpdate_cons, dictGet_dictUpdate_not_mem _ _ _ h'.1, dictGet_dictSet]
      simp [dictGet, Option.orElse]
    · rw [dictUpdate_cons, ih _ h'.2, dictGet_dictSet]
      simp [dictGet, h1, Ne.symm h1]

theorem qGet_dictSet_ne (d : Logs) (k k' : String) (v : LogVal) (dflt : ℚ)
    (h : k' ≠ k) : qGet (dictSet d k v) k' dflt = qGet d k' dflt := by
  rw [qGet, dictGet_dictSet, if_neg h, qGet]

/-! ### Retention lemmas -/

theorem removeLoop_eq (best : Path) (l fs : List Path)
    (hfs : fs.Nodup) (hl : l.Nodup) (hsub : ∀ f ∈ l, f ∈ fs) :
    removeLoop best l fs
      = .ok (fs.filter (fun f => !(l.contains f) || f == best)) := by
  induction l generalizing fs with
  | nil => simp [removeLoop]
  | cons f rest ih =>
    have hfrest : f ∉ rest := (List.nodup_cons.mp hl).1
    have hlrest : rest.Nodup := (List.nodup_cons.mp hl).2
    by_cases hfb : f = best
    · subst hfb
      rw [removeLoop, if_pos rfl,
        ih fs hfs hlrest (fun g hg => hsub g (List.mem_cons_of_mem _ hg))]
      congr 1
      apply List.filter_congr
      intro g _
      by_cases hgf : g = f
      · subst hgf; simp
      · simp [List.contains_cons, hgf, fun hh : g = f => hgf hh]
    · have hffs : f ∈ fs := hsub f (List.mem_cons_self _ _)
      have hstep : removeLoop best (f :: rest) fs = removeLoop best rest (fs.erase f) := by
        simp [removeLoop, hfb, osRemove, hffs]
      have hsub' : ∀ g ∈ rest, g ∈ fs.erase f := by
        intro g hg
        have hgf : g ≠ f := by intro hh; subst hh; exact hfrest hg
        exact (List.mem_erase_of_ne hgf).mpr (hsub g (List.mem_cons_of_mem _ hg))
      rw [hstep, ih (fs.erase f) (hfs.erase f) hlrest hsub']
      congr 1
      rw [hfs.erase_eq_filter f, List.filter_filter]
      apply List.filter_congr
      intro g _
      by_cases hgf : g = f
      · subst hgf
        simp [List.contains_cons, hfb]
      · simp [List.contains_cons, hgf, bne_iff_ne, Ne.symm,
          fun hh : g = f => hgf hh]

theorem globMatch_append (pfx sfx mid : Path) (h : ∀ c ∈ mid, c ≠ '/') :
    globMatch pfx sfx (pfx ++ mid ++ sfx) = true := by
  have e1 : pfx ++ mid ++ sfx = pfx ++ (mid ++ sfx) := by rw [List.append_assoc]
  have hlen : (pfx ++ mid ++ sfx).length = pfx.length + mid.length + sfx.length := by
    simp [List.length_append]; omega
  have htake : (pfx ++ mid ++ sfx).take pfx.length = pfx := by
    rw [e1]; exact List.take_left pfx (mid ++ sfx)
  have hdrop2 : (pfx ++ mid ++ sfx).drop ((pfx ++ mid ++ sfx).length - sfx.length)
      = sfx := by
    have hx : (pfx ++ mid ++ sfx).length - sfx.length = (pfx ++ mid).length := by
      simp [List.length_append]; omega
    rw [hx]
    exact List.drop_left (pfx ++ mid) sfx
  have hdrop : (pfx ++ mid ++ sfx).drop pfx.length = mid ++ sfx := by
    rw [e1]; exact List.drop_left pfx (mid ++ sfx)
  have hmid : ((pfx ++ mid ++ sfx).drop pfx.length).take
      ((pfx ++ mid ++ sfx).length - (pfx.length + sfx.length)) = mid := by
    rw [hdrop]
    have hx : (pfx ++ mid ++ sfx).length - (pfx.length + sfx.length) = mid.length := by
      rw [hlen]; omega
    rw [hx]
    exact List.take_left mid sfx
  unfold globMatch
  rw [htake, hdrop2, hmid]
  simp only [Bool.and_eq_true, beq_self_eq_true, decide_eq_true_eq,
    List.all_eq_true, bne_iff_ne]
  refine ⟨⟨⟨?_, trivial⟩, trivial⟩, ?_⟩
  · rw [hlen]; omega
  · intro c hc
    exact h c hc

theorem digitsAux_ne_slash (fuel n : Nat) : ∀ c ∈ digitsAux fuel n, c ≠ '/' := by
  induction fuel generalizing n with
  | zero => intro c hc; simp [digitsAux] at hc
  | succ fuel ih =>
    intro c hc
    by_cases h : n = 0
    · simp [digitsAux, h] at hc
    · rw [digitsAux, if_neg h] at hc
      rcases List.mem_append.mp hc with hc | hc
      · exact ih _ _ hc
      · have hc' : c = Nat.digitChar (n % 10) := by simpa using hc
        subst hc'
        have h10 : n % 10 < 10 := Nat.mod_lt _ (by omega)
        have hall : ∀ m < 10, Nat.digitChar m ≠ '/' := by decide
        exact hall _ h10

theorem format6_ne_slash (n : Nat) : ∀ c ∈ format6 n, c ≠ '/' := by
  intro c hc
  rcases List.mem_append.mp hc with hc | hc
  · rw [List.eq_of_mem_replicate hc]; decide
  · rw [decimalRepr] at hc
    by_cases h : n = 0
    · rw [if_pos h] at hc
      have hc' : c = '0' := by simpa using hc
      subst hc'; decide
    · rw [if_neg h] at hc
      exact digitsAux_ne_slash _ _ _ hc

end OptKerasModel

namespace OptKerasModel

/-! ### Concrete scenario data -/

/-- C1 scenario: monitored-value sequence 0.5, 0.3, 0.3, 0.4 delivered under
the minimize-mode monitor `val_loss`, one `logs` dict per epoch. -/
def valLossSeq : List Logs :=
  [ [("val_loss", .num (5/10))], [("val_loss", .num (3/10))],
    [("val_loss", .num (3/10))], [("val_loss", .num (4/10))] ]

/-- A nonempty trial-best dict present before a later epoch begins. -/
def prevBestLogs : Logs := [("val_loss", .num (1/2))]

/-- A trial-best dict that carries a key (`extra`) which the next epoch's
logs do not mention. -/
def c3BestLogs : Logs := [("val_loss", .num (1/2)), ("extra", .num 1)]

/-- The epoch logs arriving while `c3BestLogs` is the current best. -/
def c3Logs : Logs := [("val_loss", .num (3/10))]

/-- Completed demo trials with objective values 0.9, 0.4 and 0.6. -/
def demoTrial0 : FrozenTrial :=
  ⟨some 0, some .complete, some (9/10), some [], some []⟩

/-- See `demoTrial0`. -/
def demoTrial1 : FrozenTrial :=
  ⟨some 1, some .complete, some (4/10), some [], some []⟩

/-- See `demoTrial0`. -/
def demoTrial2 : FrozenTrial :=
  ⟨some 2, some .complete, some (6/10), some [], some []⟩

/-- A trial still in the running state. -/
def runningTrial : FrozenTrial := ⟨some 3, some .running, none, some [], some []⟩

/-- Artifact naming parts used in the concrete retention scenarios. -/
def mdlPfx : Path := ("model_").data

/-- See `mdlPfx`. -/
def mdlSfx : Path := (".hdf5").data

/-- Artifact path of demo trial 0. -/
def artifact0 : Path := ("model_000000.hdf5").data

/-- Artifact path of demo trial 1. -/
def artifact1 : Path := ("model_000001.hdf5").data

/-- Artifact path of demo trial 2. -/
def artifact2 : Path := ("model_000002.hdf5").data

/-! ### Claim theorems -/

/-- Claim C7: on a study with an empty trial list, `synch_with_optuna` does
not raise and resolves both the best and the latest trial to the all-`None`
sentinel; the `NoTrialsYet` failure of the study's best-trial computation is
recovered locally (the embedded `synch_with_optuna` is a total function into
a plain pair) and never reaches the caller. -/
theorem synch_empty_study_yields_sentinels :
    (∀ dirMax : Bool,
      synch_with_optuna dirMax [] = (sentinelTrial, sentinelTrial))
    ∧ (∀ dirMax : Bool,
      studyBestTrial dirMax [] = .error StudyError.noTrialsYet)
    ∧ sentinelTrial.trial_id = none ∧ sentinelTrial.value = none
    ∧ sentinelTrial.state = none ∧ sentinelTrial.params = none
    ∧ sentinelTrial.user_attrs = none :=
  ⟨fun _ => rfl, fun _ => rfl, rfl, rfl, rfl, rfl, rfl⟩

/-- Claim C8: on a non-empty trial list, the latest trial resolves to the
last trial when it is not running; to the second-to-last trial when the last
one is running and a second-to-last exists; and to the sentinel when the
last one is running and the list has length one. -/
theorem synch_latest_trial_selection (dirMax : Bool)
    (ts : List FrozenTrial) (h : ts ≠ []) :
    ((ts.getLastD sentinelTrial).state ≠ some TrialState.running →
      (synch_with_optuna dirMax ts).2 = ts.getLastD sentinelTrial)
    ∧ ((ts.getLastD sentinelTrial).state = some TrialState.running →
        2 ≤ ts.length →
        (synch_with_optuna dirMax ts).2 = ts.getD (ts.length - 2) sentinelTrial)
    ∧ ((ts.getLastD sentinelTrial).state = some TrialState.running →
        ts.length = 1 →
        (synch_with_optuna dirMax ts).2 = sentinelTrial) := by
  have h1 : 1 ≤ ts.length := List.length_pos.mpr h
  have hlat : (synch_with_optuna dirMax ts).2
      = (if 1 ≤ ts.length then
          if (ts.getLastD sentinelTrial).state = some TrialState.running then
            if 2 ≤ ts.length then ts.getD (ts.length - 2) sentinelTrial
            else sentinelTrial
          else ts.getLastD sentinelTrial
        else sentinelTrial) := rfl
  refine ⟨?_, ?_, ?_⟩
  · intro hst
    rw [hlat, if_pos h1, if_neg hst]
  · intro hst h2
    rw [hlat, if_pos h1, if_pos hst, if_pos h2]
  · intro hst hlen
    have h2 : ¬ (2 ≤ ts.length) := by omega
    rw [hlat, if_pos h1, if_pos hst, if_neg h2]

/-- Witness for claim C8 at concrete trial lists: a completed last trial is
the latest; a running last trial defers to the trial before it; a running
only trial yields the sentinel. -/
theorem synch_latest_trial_selection_witness :
    ((synch_with_optuna false [demoTrial0, demoTrial1]).2 = demoTrial1)
    ∧ ((synch_with_optuna false [demoTrial0, runningTrial]).2 = demoTrial0)
    ∧ ((synch_with_optuna false [runningTrial]).2 = sentinelTrial) := by
  refine ⟨?_, ?_, ?_⟩
  · exact (synch_latest_trial_selection false [demoTrial0, demoTrial1]
      (List.cons_ne_nil _ _)).1 (by decide)
  · exact (synch_latest_trial_selection false [demoTrial0, runningTrial]
      (List.cons_ne_nil _ _)).2.1 (by decide) (by decide)
  · exact (synch_latest_trial_selection false [runningTrial]
      (List.cons_ne_nil _ _)).2.2 (by decide) (by decide)

/-- Claim C10: for every retention count other than 1 (including 0, -1 and
unrecognized values such as 2), `clean_up_model_files` deletes nothing and
returns the file-system state unchanged, without error. -/
theorem clean_up_noop_unless_keep_one (m : Int) (b? : Option Nat)
    (pfx sfx : Path) (fs : List Path) (h : m ≠ 1) :
    clean_up_model_files m b? pfx sfx fs = .ok fs := by
  rw [clean_up_model_files, if_neg h]

/-- Witness for claim C10 at the retention counts 2, 0 and -1. -/
theorem clean_up_noop_unless_keep_one_witness :
    clean_up_model_files 2 (some 1) mdlPfx mdlSfx [artifact0, artifact1]
        = .ok [artifact0, artifact1]
    ∧ clean_up_model_files 0 none mdlPfx mdlSfx [artifact0] = .ok [artifact0]
    ∧ clean_up_model_files (-1) none mdlPfx mdlSfx [] = .ok [] :=
  ⟨clean_up_noop_unless_keep_one 2 (some 1) _ _ _ (by decide),
   clean_up_noop_unless_keep_one 0 none _ _ _ (by decide),
   clean_up_noop_unless_keep_one (-1) none _ _ _ (by decide)⟩

/-- Claim C5, counterexample: constructing with the unsupported retention
count 2 does not raise — `OptKeras.__init__` contains no validation of
`models_to_keep`, so the value is silently accepted. -/
theorem init_accepts_retention_two :
    optKerasInit "val_error" 2 [] [] [] []
        = .ok (mkState "val_error" 2 [] [] [] [])
    ∧ ∀ e, optKerasInit "val_error" 2 [] [] [] [] ≠ .error e :=
  ⟨rfl, fun _ h => Except.noConfusion h⟩

/-- Claim C5, amended: construction accepts every retention-count value
without validation; the value is stored unchanged on the instance. -/
theorem init_never_rejects_retention_count (monitor : String) (m : Int)
    (pfx sfx dir study_name : List Char) :
    ∃ st, optKerasInit monitor m pfx sfx dir study_name = .ok st
      ∧ st.models_to_keep = m :=
  ⟨mkState monitor m pfx sfx dir study_name, rfl, rfl⟩

/-- Claim C6, counterexample: the deletion loop invoked while a selected
(non-best) file is absent from storage raises `FileNotFoundError` — the
`os.remove` call is not wrapped, so the missing-file case is not treated as
success. -/
theorem remove_absent_file_raises :
    removeLoop ['b'] [['a']] [] = .error "FileNotFoundError"
    ∧ osRemove [] ['a'] = .error "FileNotFoundError" :=
  ⟨rfl, rfl⟩

/-- Claim C6, amended: deleting an already-absent file raises (deletion is
not idempotent); the cleanup loop succeeds exactly when every selected file
is still present, as in sequential runs where the enumeration is fresh. -/
theorem removeLoop_present_succeeds_absent_raises :
    (∀ (best : Path) (l fs : List Path), fs.Nodup → l.Nodup →
      (∀ f ∈ l, f ∈ fs) → ∃ fs', removeLoop best l fs = .ok fs')
    ∧ (∀ (best f : Path) (rest fs : List Path), f ∉ fs → f ≠ best →
      removeLoop best (f :: rest) fs = .error "FileNotFoundError") := by
  constructor
  · intro best l fs hfs hl hsub
    exact ⟨_, removeLoop_eq best l fs hfs hl hsub⟩
  · intro best f rest fs hmem hne
    rw [removeLoop, if_neg hne,
      show osRemove fs f = .error "FileNotFoundError" from if_neg hmem]

/-- Witness for claim C6 (amended): the loop succeeds on an all-present
enumeration and raises when a selected file is gone. -/
theorem removeLoop_present_succeeds_absent_raises_witness :
    (∃ fs', removeLoop ['b'] [['a']] [['a'], ['b']] = .ok fs')
    ∧ removeLoop ['b'] [['c']] [['a']] = .error "FileNotFoundError" :=
  ⟨removeLoop_present_succeeds_absent_raises.1 ['b'] [['a']] [['a'], ['b']]
      (by decide) (by decide) (by decide),
   removeLoop_present_succeeds_absent_raises.2 ['b'] ['c'] [] [['a']]
      (by decide) (by decide)⟩

end OptKerasModel

namespace OptKerasModel

/-- Claim C1, code-bug evidence: running the epoch callbacks of one trial on
the monitored sequence 0.5, 0.3, 0.3, 0.4 under minimize mode retains 0.4
(the last epoch's value), not the claimed 0.3 — `on_epoch_begin` resets
`trial_best_logs` on every epoch, so the trial best degenerates to the latest
epoch, and the retained value is strictly worse than the 0.3 seen earlier. -/
theorem trial_best_value_tracks_last_epoch :
    (runTrialEpochs (mkState "val_loss" 1 [] [] [] []) 0 valLossSeq).trial_best_value
      = XVal.fin (4/10)
    ∧ XVal.fin (4/10) ≠ XVal.fin (3/10)
    ∧ xlt (XVal.fin (3/10)) (XVal.fin (4/10)) = true := by
  refine ⟨?_, ?_, ?_⟩
  · with_unfolding_all decide
  · with_unfolding_all decide
  · with_unfolding_all decide

/-- Claim C2, code-bug evidence: `on_epoch_begin` clears `trial_best_logs`
unconditionally — on every call, not only at a trial's first epoch — so a
later epoch's call wipes a nonempty trial best (while stamping the epoch
timestamp). -/
theorem on_epoch_begin_clears_unconditionally :
    (∀ (dt : String) (b : Logs), on_epoch_begin dt b = (dt, []))
    ∧ (on_epoch_begin "t2" prevBestLogs).2 = []
    ∧ prevBestLogs ≠ [] := by
  refine ⟨fun _ _ => rfl, rfl, ?_⟩
  simp [prevBestLogs]

/-- Claim C3, counterexample: the replacement is not wholesale.  With current
best `c3BestLogs` (which carries the key `extra`) and an improving epoch
(update condition true), the new `trial_best_logs` still contains `extra`,
which the new epoch log does not, so the best is not replaced by the epoch
log — `dict.update` merges instead. -/
theorem update_replaces_by_merge_counterexample :
    (update_flag
        (xGet (on_epoch_end { mkState "val_loss" 1 [] [] [] [] with
            trial_best_logs := c3BestLogs } "b" "e" 0 c3Logs).1
          "val_loss" XVal.posInf)
        (xGet c3BestLogs "val_loss" XVal.posInf) false = true)
    ∧ dictGet (on_epoch_end { mkState "val_loss" 1 [] [] [] [] with
          trial_best_logs := c3BestLogs } "b" "e" 0 c3Logs).2.trial_best_logs
        "extra" = some (.num 1)
    ∧ dictGet (on_epoch_end { mkState "val_loss" 1 [] [] [] [] with
          trial_best_logs := c3BestLogs } "b" "e" 0 c3Logs).1 "extra" = none
    ∧ (on_epoch_end { mkState "val_loss" 1 [] [] [] [] with
          trial_best_logs := c3BestLogs } "b" "e" 0 c3Logs).2.trial_best_logs
      ≠ (on_epoch_end { mkState "val_loss" 1 [] [] [] [] with
          trial_best_logs := c3BestLogs } "b" "e" 0 c3Logs).1 := by
  refine ⟨?_, ?_, ?_, ?_⟩
  · with_unfolding_all decide
  · with_unfolding_all decide
  · with_unfolding_all decide
  · with_unfolding_all decide

/-- Claim C3, amended: mode is maximize iff the monitor is `acc` or
`val_acc` (minimize otherwise); a missing monitored value reads as the
mode-appropriate infinite sentinel; and `on_epoch_end` updates
`trial_best_logs` by merging the new epoch log over it (keys absent from the
epoch log are retained) exactly when (maximize and latest > best) or
(minimize and latest < best), leaving it unchanged otherwise. -/
theorem mode_rule_and_best_update_rule (monitor : String) (m : Int)
    (pfx sfx dir study_name : List Char) (dtb dte : String) (tid : Int)
    (logs best : Logs) :
    ((mkState monitor m pfx sfx dir study_name).mode_max = true
        ↔ (monitor = "acc" ∨ monitor = "val_acc"))
    ∧ ((mkState monitor m pfx sfx dir study_name).default_value
        = if (mkState monitor m pfx sfx dir study_name).mode_max then
            XVal.negInf
          else XVal.posInf)
    ∧ (∀ r : Logs × OptKerasState,
        r = on_epoch_end { mkState monitor m pfx sfx dir study_name with
            trial_best_logs := best } dtb dte tid logs →
        (dictKeys r.1).Nodup →
        (update_flag
            (xGet r.1 monitor
              (mkState monitor m pfx sfx dir study_name).default_value)
            (xGet best monitor
              (mkState monitor m pfx sfx dir study_name).default_value)
            (mkState monitor m pfx sfx dir study_name).mode_max = true →
          ∀ k, dictGet r.2.trial_best_logs k
            = (dictGet r.1 k).orElse (fun _ => dictGet best k))
        ∧ (update_flag
            (xGet r.1 monitor
              (mkState monitor m pfx sfx dir study_name).default_value)
            (xGet best monitor
              (mkState monitor m pfx sfx dir study_name).default_value)
            (mkState monitor m pfx sfx dir study_name).mode_max = false →
          r.2.trial_best_logs = best)) := by
  refine ⟨?_, ?_, ?_⟩
  · simp [mkState]
  · simp [mkState]
  · rintro r rfl hnd
    have hbest : (on_epoch_end { mkState monitor m pfx sfx dir study_name with
        trial_best_logs := best } dtb dte tid logs).2.trial_best_logs
        = update_best_logs
            (on_epoch_end { mkState monitor m pfx sfx dir study_name with
              trial_best_logs := best } dtb dte tid logs).1 best monitor
            (mkState monitor m pfx sfx dir study_name).mode_max
            (mkState monitor m pfx sfx dir study_name).default_value := rfl
    constructor
    · intro hflag k
      rw [hbest, update_best_logs]
      simp only []
      rw [if_pos hflag]
      exact dictGet_dictUpdate best _ k hnd
    · intro hflag
      rw [hbest, update_best_logs]
      simp only []
      rw [if_neg (by rw [hflag]; exact Bool.false_ne_true)]

/-- Witness for claim C3 (amended) at a concrete improving epoch: the merge
retains the `extra` entry of the previous best. -/
theorem mode_rule_and_best_update_rule_witness :
    dictGet (on_epoch_end { mkState "val_loss" 1 [] [] [] [] with
        trial_best_logs := c3BestLogs } "b" "e" 0 c3Logs).2.trial_best_logs
      "extra" = some (.num 1) := by
  have h := ((mode_rule_and_best_update_rule "val_loss" 1 [] [] [] [] "b" "e" 0
      c3Logs c3BestLogs).2.2 _ rfl (by with_unfolding_all decide)).1
      (by with_unfolding_all decide) "extra"
  rw [h]
  with_unfolding_all decide

end OptKerasModel

namespace OptKerasModel

/-- Claim C4: under the keep-one retention policy, after
`clean_up_model_files` runs on a duplicate-free file system whose paths
contain no literal `*` and which holds the best trial's artifact whenever a
best trial exists, the files matching the artifact naming pattern are
exactly the best trial's artifact path — and none at all when no trial has
completed (best trial id absent). -/
theorem keep_one_retains_exactly_best (pfx sfx : Path) (fs : List Path)
    (b? : Option Nat) (hfs : fs.Nodup) (hstar : ∀ f ∈ fs, '*' ∉ f)
    (hbest : ∀ b, b? = some b → get_model_file_path pfx sfx (some b) ∈ fs) :
    ∃ fs', clean_up_model_files 1 b? pfx sfx fs = .ok fs'
      ∧ ∀ f, (f ∈ fs' ∧ globMatch pfx sfx f = true)
          ↔ (b?.isSome = true ∧ f = get_model_file_path pfx sfx b?) := by
  have hglob_nodup : (globFiles pfx sfx fs).Nodup := hfs.filter _
  have hglob_sub : ∀ f ∈ globFiles pfx sfx fs, f ∈ fs :=
    fun f hf => (List.mem_filter.mp hf).1
  have hcu : clean_up_model_files 1 b? pfx sfx fs
      = removeLoop (get_model_file_path pfx sfx b?) (globFiles pfx sfx fs) fs :=
    rfl
  rw [hcu, removeLoop_eq _ _ _ hfs hglob_nodup hglob_sub]
  refine ⟨_, rfl, ?_⟩
  intro f
  constructor
  · rintro ⟨hmem, hmatch⟩
    rw [List.mem_filter] at hmem
    obtain ⟨hffs, hcond⟩ := hmem
    have hcontains : (globFiles pfx sfx fs).contains f = true := by
      have : f ∈ globFiles pfx sfx fs := List.mem_filter.mpr ⟨hffs, hmatch⟩
      simpa using this
    rw [hcontains] at hcond
    have hfb : f = get_model_file_path pfx sfx b? := by simpa using hcond
    cases b? with
    | none =>
      exfalso
      apply hstar f hffs
      rw [hfb]
      show '*' ∈ pfx ++ ['*'] ++ sfx
      exact List.mem_append.mpr (Or.inl (List.mem_append.mpr (Or.inr (by simp))))
    | some b => exact ⟨rfl, hfb⟩
  · rintro ⟨hsome, rfl⟩
    obtain ⟨b, rfl⟩ := Option.isSome_iff_exists.mp hsome
    have hpmem : get_model_file_path pfx sfx (some b) ∈ fs := hbest b rfl
    have hpmatch : globMatch pfx sfx (get_model_file_path pfx sfx (some b))
        = true := by
      show globMatch pfx sfx (pfx ++ format6 b ++ sfx) = true
      exact globMatch_append pfx sfx (format6 b) (format6_ne_slash b)
    refine ⟨List.mem_filter.mpr ⟨hpmem, ?_⟩, hpmatch⟩
    simp

/-- Witness for claim C4 at the spec's concrete scenario: trials 0, 1, 2
complete with objective values 0.9, 0.4, 0.6 under minimize, so trial 1 is
the best; after the retention pass exactly trial 1's artifact remains. -/
theorem keep_one_retains_exactly_best_witness :
    (studyBestTrial false [demoTrial0, demoTrial1, demoTrial2] = .ok demoTrial1
      ∧ demoTrial1.trial_id = some 1)
    ∧ (∃ fs', clean_up_model_files 1 (some 1) mdlPfx mdlSfx
          [artifact0, artifact1, artifact2] = .ok fs'
        ∧ ∀ f, (f ∈ fs' ∧ globMatch mdlPfx mdlSfx f = true)
            ↔ ((some 1 : Option Nat).isSome = true
                ∧ f = get_model_file_path mdlPfx mdlSfx (some 1)))
    ∧ clean_up_model_files 1 (some 1) mdlPfx mdlSfx
        [artifact0, artifact1, artifact2] = .ok [artifact1] := by
  refine ⟨⟨by with_unfolding_all rfl, rfl⟩, ?_, by rfl⟩
  exact keep_one_retains_exactly_best mdlPfx mdlSfx
    [artifact0, artifact1, artifact2] (some 1) (by decide) (by decide)
    (fun b hb => by
      injection hb with h
      subst h
      decide)

/-- Claim C9: `on_epoch_end` leaves in the (in-place mutated) logs mapping
the derived keys `error = 1 - acc` and `val_error = 1 - val_acc` (missing
inputs defaulting to 0), the epoch-begin and epoch-end timestamps, the trial
id and the monitor name; on the input `acc = 0.8, val_acc = 0.7` the result
carries `error = 0.2` and `val_error = 0.3`. -/
theorem on_epoch_end_mutates_logs (st : OptKerasState) (dtb dte : String)
    (tid : Int) (logs : Logs) :
    (dictGet (on_epoch_end st dtb dte tid logs).1 "error"
        = some (.num (1 - qGet logs "acc" 0))
      ∧ dictGet (on_epoch_end st dtb dte tid logs).1 "val_error"
        = some (.num (1 - qGet logs "val_acc" 0))
      ∧ dictGet (on_epoch_end st dtb dte tid logs).1 "_Datetime_epoch_begin"
        = some (.str dtb)
      ∧ dictGet (on_epoch_end st dtb dte tid logs).1 "_Datetime_epoch_end"
        = some (.str dte)
      ∧ dictGet (on_epoch_end st dtb dte tid logs).1 "_Trial_id"
        = some (.intv tid)
      ∧ dictGet (on_epoch_end st dtb dte tid logs).1 "_Monitor"
        = some (.str st.monitor))
    ∧ (dictGet (on_epoch_end st dtb dte tid
          [("acc", .num (8/10)), ("val_acc", .num (7/10))]).1 "error"
        = some (.num (2/10))
      ∧ dictGet (on_epoch_end st dtb dte tid
          [("acc", .num (8/10)), ("val_acc", .num (7/10))]).1 "val_error"
        = some (.num (3/10))) := by
  have key : ∀ lg : Logs,
      dictGet (on_epoch_end st dtb dte tid lg).1 "error"
          = some (.num (1 - qGet lg "acc" 0))
        ∧ dictGet (on_epoch_end st dtb dte tid lg).1 "val_error"
          = some (.num (1 - qGet lg "val_acc" 0))
        ∧ dictGet (on_epoch_end st dtb dte tid lg).1 "_Datetime_epoch_begin"
          = some (.str dtb)
        ∧ dictGet (on_epoch_end st dtb dte tid lg).1 "_Datetime_epoch_end"
          = some (.str dte)
        ∧ dictGet (on_epoch_end st dtb dte tid lg).1 "_Trial_id"
          = some (.intv tid)
        ∧ dictGet (on_epoch_end st dtb dte tid lg).1 "_Monitor"
          = some (.str st.monitor) := by
    intro lg
    simp only [on_epoch_end, dictGet_dictSet]
    simp [qGet_dictSet_ne]
  refine ⟨key logs, ?_, ?_⟩
  · rw [(key _).1,
      show qGet [("acc", LogVal.num (8/10)), ("val_acc", LogVal.num (7/10))]
        "acc" 0 = 8/10 from rfl]
    norm_num
  · rw [(key _).2.1,
      show qGet [("acc", LogVal.num (8/10)), ("val_acc", LogVal.num (7/10))]
        "val_acc" 0 = 7/10 from rfl]
    norm_num

end OptKerasModel
